import Mathlib

set_option autoImplicit false

/-!
Verification of the reminder scheduling engine (scheduler.py, bot_notifier.py).

Modelling conventions:
* absolute instants are `Int` seconds since the Unix epoch (UTC);
* a calendar date is its `Int` day number (`instant.fdiv 86400`);
* a time zone is a pair of offset functions capturing exactly what pytz
  contributes: `localizeOff` is the UTC offset (seconds) that `tz.localize`
  attaches to a naive local datetime, as a function of that naive value;
  `offAt` is the UTC offset that `astimezone(tz)` attaches, as a function of
  the absolute instant being converted;
* the APScheduler job table is an association list keyed by `JobKey`, which
  mirrors the injective job-id strings `homework_reminder_{id}` and
  `class_reminder_{slot}_{date}_student_{student}`;
* database state is an `Env` record of entity rows; job bodies thread it
  explicitly, and outbound sends are driven by an `oracle : Int → Bool`
  telling which chat ids the transport can deliver to (False = the send
  raises); `try/except` blocks in the source become total handling of the
  `Except` value.
-/

inductive DayOfWeek where
  | monday | tuesday | wednesday | thursday | friday | saturday | sunday
deriving DecidableEq

structure TZ where
  localizeOff : Int → Int
  offAt : Int → Int

def TZ.utc : TZ := ⟨fun _ => 0, fun _ => 0⟩

structure User where
  id : Int
  tg_id : Int
  timezone : String
  is_active : Bool
deriving DecidableEq

structure GroupRow where
  id : Int
  teacher_id : Int
  is_active : Bool
deriving DecidableEq

structure GroupMember where
  group_id : Int
  student_id : Int
deriving DecidableEq

structure Homework where
  id : Int
  group_id : Int
  deadline : Int
  reminder_sent : Bool
deriving DecidableEq

structure Schedule where
  id : Int
  group_id : Int
  day_of_week : DayOfWeek
  time_at : Int
  meeting_link : Option String
deriving DecidableEq

structure Env where
  users : List User
  groups : List GroupRow
  members : List GroupMember
  homeworks : List Homework
  schedules : List Schedule
  tzdb : String → Option TZ

inductive JobKey where
  | homeworkK (id : Int)
  | classK (slotId targetDate studentId : Int)
deriving DecidableEq

structure JobEntry where
  key : JobKey
  fire : Int
  args : List Int
deriving DecidableEq

def JobStore := List JobEntry

instance : DecidableEq JobStore := inferInstanceAs (DecidableEq (List JobEntry))

def lookupJob : JobStore → JobKey → Option JobEntry
  | [], _ => none
  | e :: rest, k => if e.key = k then some e else lookupJob rest k

def upsertJob : JobStore → JobKey → Int → List Int → JobStore
  | [], k, r, a => [⟨k, r, a⟩]
  | e :: rest, k, r, a =>
    if e.key = k then ⟨k, r, a⟩ :: rest else e :: upsertJob rest k r a

def removeFirstJob : JobStore → JobKey → JobStore
  | [], _ => []
  | e :: rest, k => if e.key = k then rest else e :: removeFirstJob rest k

/-- `scheduler.remove_job`: raises (`none`) when no job with the id exists. -/
def remove_job (st : JobStore) (k : JobKey) : Option JobStore :=
  match lookupJob st k with
  | none => none
  | some _ => some (removeFirstJob st k)

/-- The add-or-skip step guarded by the 60-second idempotency check that the
class planner performs before `add_job(..., replace_existing=True)`. -/
def tolerantUpsert (st : JobStore) (k : JobKey) (r : Int) (a : List Int) : JobStore :=
  match lookupJob st k with
  | some e => if (e.fire - r).natAbs < 60 then st else upsertJob st k r a
  | none => upsertJob st k r a

def findUser : List User → Int → Option User
  | [], _ => none
  | u :: rest, uid => if u.id = uid then some u else findUser rest uid

def findGroup : List GroupRow → Int → Option GroupRow
  | [], _ => none
  | g :: rest, gid => if g.id = gid then some g else findGroup rest gid

def findHomework : List Homework → Int → Option Homework
  | [], _ => none
  | h :: rest, hid => if h.id = hid then some h else findHomework rest hid

def findSchedule : List Schedule → Int → Option Schedule
  | [], _ => none
  | s :: rest, sid => if s.id = sid then some s else findSchedule rest sid

def membersOf : List GroupMember → Int → List GroupMember
  | [], _ => []
  | m :: rest, gid =>
    if m.group_id = gid then m :: membersOf rest gid else membersOf rest gid

def setHomeworkSent : List Homework → Int → List Homework
  | [], _ => []
  | h :: rest, hid =>
    (if h.id = hid then { h with reminder_sent := true } else h) :: setHomeworkSent rest hid

/-- Python truthiness of an optional string column (`if not s.meeting_link`). -/
def linkTruthy : Option String → Bool
  | none => false
  | some s => s ≠ ""

def isGroupActive (groups : List GroupRow) (gid : Int) : Bool :=
  match findGroup groups gid with
  | some g => g.is_active
  | none => false

/-- `calendar.day_name[date.weekday()].lower()` composed with `day_mapping`:
day number 0 (1970-01-01) was a Thursday; Python's `weekday()` has Monday = 0. -/
def dayOfWeekOf (d : Int) : DayOfWeek :=
  match ((d + 3) % 7).toNat with
  | 0 => .monday
  | 1 => .tuesday
  | 2 => .wednesday
  | 3 => .thursday
  | 4 => .friday
  | 5 => .saturday
  | _ => .sunday

/-- `pytz.timezone(name)` with the `UnknownTimeZoneError` handler degrading to UTC. -/
def resolveTZ (env : Env) (name : String) : TZ :=
  (env.tzdb name).getD TZ.utc

/-- `teacher_tz.localize(datetime.combine(target_date, item.time_at)).astimezone(utc)`. -/
def classStartUtc (env : Env) (teacher : User) (targetDate timeAt : Int) : Int :=
  let tz := resolveTZ env teacher.timezone
  let naive := targetDate * 86400 + timeAt
  naive - tz.localizeOff naive

/-- The student-zone reminder computation: project the class-start instant into
the student's zone, subtract one hour there, convert back to UTC. -/
def reminderUtcOf (tz : TZ) (classUtc : Int) : Int :=
  let offS := tz.offAt classUtc
  let classNaiveStudent := classUtc + offS
  let remNaiveStudent := classNaiveStudent - 3600
  remNaiveStudent - offS

/-- `schedule_homework_reminder(homework_id, deadline_utc, group_id)`. -/
def schedule_homework_reminder (now : Int) (homework_id deadline_utc group_id : Int)
    (st : JobStore) : JobStore :=
  let reminder_time := deadline_utc - 3600
  if reminder_time ≤ now then st
  else upsertJob st (.homeworkK homework_id) reminder_time [homework_id, group_id]

/-- `cancel_homework_reminder(homework_id)`: `remove_job` inside a bare
`try/except: pass`. -/
def cancel_homework_reminder (st : JobStore) (homework_id : Int) : JobStore :=
  match remove_job st (.homeworkK homework_id) with
  | some st1 => st1
  | none => st

/-- `bot.send_message`: the raw transport call, which raises when the oracle
says delivery to that chat id fails. -/
def sendMessage (oracle : Int → Bool) (tg : Int) : Except String Unit :=
  if oracle tg then .ok () else .error "send failed"

/-- `bot_notifier.send_homework_reminder`: the whole body sits in one
`try/except` that swallows every delivery error. -/
def send_homework_reminder (oracle : Int → Bool) (tg : Int) : Except String Unit :=
  match sendMessage oracle tg with
  | .ok _ => .ok ()
  | .error _ => .ok ()

/-- `bot_notifier.send_class_reminder`: likewise fully wrapped in `try/except`. -/
def send_class_reminder (oracle : Int → Bool) (tg : Int) : Except String Unit :=
  match sendMessage oracle tg with
  | .ok _ => .ok ()
  | .error _ => .ok ()

/-- The recipients the homework fan-out loop actually attempts: members of the
group whose student row exists and is active, in order. -/
def activeRecipients (env : Env) : List GroupMember → List Int
  | [] => []
  | m :: rest =>
    match findUser env.users m.student_id with
    | none => activeRecipients env rest
    | some s =>
      if s.is_active = false then activeRecipients env rest
      else s.tg_id :: activeRecipients env rest

/-- The `for member in members` loop of `send_homework_reminder_job`; an
uncaught send error would abort the remaining iterations. -/
def homeworkFanout (env : Env) (oracle : Int → Bool) : List GroupMember → Except String (List Int)
  | [] => .ok []
  | m :: rest =>
    match findUser env.users m.student_id with
    | none => homeworkFanout env oracle rest
    | some s =>
      if s.is_active = false then homeworkFanout env oracle rest
      else
        match send_homework_reminder oracle s.tg_id with
        | .ok _ => (homeworkFanout env oracle rest).map (fun l => s.tg_id :: l)
        | .error e => .error e

/-- `send_homework_reminder_job(homework_id, group_id)`; the returned list is
the chat ids to which a send was attempted. -/
def send_homework_reminder_job (env : Env) (oracle : Int → Bool)
    (homework_id group_id : Int) : Except String (Env × List Int) :=
  match findHomework env.homeworks homework_id with
  | none => .ok (env, [])
  | some homework =>
    if homework.reminder_sent = true then .ok (env, [])
    else
      match findGroup env.groups group_id with
      | none => .ok (env, [])
      | some group =>
        if group.is_active = false then .ok (env, [])
        else
          match homeworkFanout env oracle (membersOf env.members group_id) with
          | .error e => .error e
          | .ok sent =>
            .ok ({ env with homeworks := setHomeworkSent env.homeworks homework_id }, sent)

/-- `send_class_reminder_to_student_job(schedule_id, student_id)`; the send is
wrapped in its own `try/except`, so either outcome continues normally. -/
def send_class_reminder_to_student_job (env : Env) (oracle : Int → Bool)
    (schedule_id student_id : Int) : Except String (Env × List Int) :=
  match findSchedule env.schedules schedule_id with
  | none => .ok (env, [])
  | some schedule_item =>
    match findGroup env.groups schedule_item.group_id with
    | none => .ok (env, [])
    | some group =>
      if group.is_active = false then .ok (env, [])
      else
        match findUser env.users student_id with
        | none => .ok (env, [])
        | some student =>
          if student.is_active = false then .ok (env, [])
          else
            match send_class_reminder oracle student.tg_id with
            | .ok _ => .ok (env, [student.tg_id])
            | .error _ => .ok (env, [student.tg_id])

/-- Guard conditions under which the homework job body returns before any
delivery: homework row gone, group gone, or group inactive. -/
def homeworkSuppressedB (env : Env) (homework_id group_id : Int) : Bool :=
  match findHomework env.homeworks homework_id with
  | none => true
  | some _ =>
    match findGroup env.groups group_id with
    | none => true
    | some g => !g.is_active

/-- Guard conditions under which the class job body returns before any
delivery: schedule row gone, group gone or inactive, student gone or inactive. -/
def classSuppressedB (env : Env) (schedule_id student_id : Int) : Bool :=
  match findSchedule env.schedules schedule_id with
  | none => true
  | some schedule_item =>
    match findGroup env.groups schedule_item.group_id with
    | none => true
    | some g =>
      if g.is_active = false then true
      else
        match findUser env.users student_id with
        | none => true
        | some s => !s.is_active

/-- Which of today/tomorrow a slot's day-of-week selects (the
`if item.day_of_week == today_day ... elif ... else continue` branch). -/
def targetDateOf (today tomorrow : Int) (td tm : DayOfWeek) (item : Schedule) : Option Int :=
  if item.day_of_week = td then some today
  else if item.day_of_week = tm then some tomorrow
  else none

/-- The per-student body of the planner's inner loop. -/
def processStudentJobs (env : Env) (now classUtc slotId targetDate : Int)
    (st : JobStore) (m : GroupMember) : JobStore :=
  match findUser env.users m.student_id with
  | none => st
  | some student =>
    if student.is_active = false then st
    else
      let r := reminderUtcOf (resolveTZ env student.timezone) classUtc
      if r > now ∧ classUtc > now then
        tolerantUpsert st (.classK slotId targetDate student.id) r [slotId, student.id]
      else st

/-- The per-slot body of the planner's outer loop: resolve target date,
group, teacher and class-start instant, then loop over the group's members. -/
def processSlotJobs (env : Env) (now today tomorrow : Int) (td tm : DayOfWeek)
    (st : JobStore) (item : Schedule) : JobStore :=
  match targetDateOf today tomorrow td tm item with
  | none => st
  | some targetDate =>
    match findGroup env.groups item.group_id with
    | none => st
    | some group =>
      match findUser env.users group.teacher_id with
      | none => st
      | some teacher =>
        let classUtc := classStartUtc env teacher targetDate item.time_at
        (membersOf env.members item.group_id).foldl
          (processStudentJobs env now classUtc item.id targetDate) st

/-- The slot query: schedules on today's or tomorrow's day-of-week joined to
active groups, then restricted to those with a truthy meeting link. -/
def candidateSchedules (env : Env) (td tm : DayOfWeek) : List Schedule :=
  (env.schedules.filter
      (fun s => (decide (s.day_of_week = td) || decide (s.day_of_week = tm))
        && isGroupActive env.groups s.group_id)).filter
    (fun s => linkTruthy s.meeting_link)

/-- `schedule_class_reminders()` restricted to its effect on the job table. -/
def schedule_class_reminders_jobs (env : Env) (now : Int) (st : JobStore) : JobStore :=
  let today := now.fdiv 86400
  let tomorrow := today + 1
  let td := dayOfWeekOf today
  let tm := dayOfWeekOf tomorrow
  (candidateSchedules env td tm).foldl
    (processSlotJobs env now today tomorrow td tm) st

/-- `schedule_class_reminders()` as a transformer of the full program state:
the database session is threaded through every slot iteration alongside the
job table, so any entity mutation the loop performed would surface here. -/
def schedule_class_reminders (env : Env) (now : Int) (st : JobStore) : Env × JobStore :=
  let today := now.fdiv 86400
  let tomorrow := today + 1
  let td := dayOfWeekOf today
  let tm := dayOfWeekOf tomorrow
  (candidateSchedules env td tm).foldl
    (fun acc item =>
      (acc.1, processSlotJobs acc.1 now today tomorrow td tm acc.2 item))
    (env, st)

/-- One (slot, target date, member row) iteration point of a planning pass. -/
structure PlanUnit where
  slot : Schedule
  targetDate : Int
  member : GroupMember
deriving DecidableEq

/-- The iteration points a single slot contributes to a planning pass. -/
def itemUnits (env : Env) (today tomorrow : Int) (td tm : DayOfWeek)
    (item : Schedule) : List PlanUnit :=
  match targetDateOf today tomorrow td tm item with
  | none => []
  | some d => (membersOf env.members item.group_id).map (fun m => ⟨item, d, m⟩)

def unitsOf (env : Env) (today tomorrow : Int) (td tm : DayOfWeek) :
    List Schedule → List PlanUnit
  | [] => []
  | s :: rest =>
    itemUnits env today tomorrow td tm s ++ unitsOf env today tomorrow td tm rest

/-- All iteration points of the planning pass at instant `now`. -/
def planUnits (env : Env) (now : Int) : List PlanUnit :=
  let today := now.fdiv 86400
  let tomorrow := today + 1
  let td := dayOfWeekOf today
  let tm := dayOfWeekOf tomorrow
  unitsOf env today tomorrow td tm (candidateSchedules env td tm)

/-- What one iteration point does to the job table: `none` when it falls
through without touching the scheduler, otherwise the key, fire instant and
args of the job it (tolerantly) upserts. -/
def unitAction (env : Env) (now : Int) (u : PlanUnit) :
    Option (JobKey × Int × List Int) :=
  match findGroup env.groups u.slot.group_id with
  | none => none
  | some group =>
    match findUser env.users group.teacher_id with
    | none => none
    | some teacher =>
      let classUtc := classStartUtc env teacher u.targetDate u.slot.time_at
      match findUser env.users u.member.student_id with
      | none => none
      | some student =>
        if student.is_active = false then none
        else
          let r := reminderUtcOf (resolveTZ env student.timezone) classUtc
          if r > now ∧ classUtc > now then
            some (.classK u.slot.id u.targetDate student.id, r, [u.slot.id, student.id])
          else none

/-- The job-table effect of one iteration point. -/
def stepU (env : Env) (now : Int) (st : JobStore) (u : PlanUnit) : JobStore :=
  match unitAction env now u with
  | none => st
  | some (k, r, a) => tolerantUpsert st k r a

/-- The store holds a job under `k` whose fire instant is within the
60-second tolerance of `r`. -/
def near (st : JobStore) (k : JobKey) (r : Int) : Prop :=
  ∃ e, lookupJob st k = some e ∧ (e.fire - r).natAbs < 60

/-- After a full pass, the store is tolerant-stable at iteration point `u`. -/
def GoodAt (env : Env) (now : Int) (st : JobStore) (u : PlanUnit) : Prop :=
  ∀ k r a, unitAction env now u = some (k, r, a) → near st k r

/-- A fixed-offset zone (no DST transition near the instants of interest). -/
def tzOffset (off : Int) : TZ := ⟨fun _ => off, fun _ => off⟩

def teacherW : User := ⟨1, 101, "Europe/Moscow", true⟩

def studentW : User := ⟨2, 102, "America/New_York", true⟩

def groupW : GroupRow := ⟨10, 1, true⟩

def memberW : GroupMember := ⟨10, 2⟩

/-- Monday-18:00 slot (time-of-day stored as seconds since local midnight). -/
def schedEvening : Schedule := ⟨20, 10, .monday, 64800, some "https://meet.example/a"⟩

/-- Monday-00:00 slot, already in the past at the witness instant. -/
def schedMidnight : Schedule := ⟨21, 10, .monday, 0, some "https://meet.example/b"⟩

def hwW : Homework := ⟨30, 10, 1560000, false⟩

def tzdbW : String → Option TZ := fun n =>
  if n = "Europe/Moscow" then some (tzOffset 10800)
  else if n = "America/New_York" then some (tzOffset (-14400))
  else none

/-- Concrete database state: one active group, teacher in Moscow, student in
New York, two Monday slots with links, one homework item. -/
def envW : Env :=
  ⟨[teacherW, studentW], [groupW], [memberW], [hwW], [schedEvening, schedMidnight], tzdbW⟩

/-- Day number 18 (1970-01-19) is a Monday; `nowW` is 01:00 UTC that day. -/
def nowW : Int := 18 * 86400 + 3600

/-- State where the student exists and is active but is not a member of the
schedule's group (removed between planning and firing). -/
def envNoMember : Env :=
  ⟨[⟨1, 101, "UTC", true⟩, ⟨2, 102, "UTC", true⟩], [⟨10, 1, true⟩], [],
    [], [⟨20, 10, .monday, 3600, some "https://meet.example/c"⟩], fun _ => none⟩

theorem lookupJob_upsert_self (st : JobStore) (k : JobKey) (r : Int) (a : List Int) :
    lookupJob (upsertJob st k r a) k = some ⟨k, r, a⟩ := by
  induction st with
  | nil => simp [upsertJob, lookupJob]
  | cons e rest ih =>
    by_cases h : e.key = k
    · simp [upsertJob, h, lookupJob]
    · simp [upsertJob, h, lookupJob, ih]

theorem lookupJob_upsert_ne (st : JobStore) (k k1 : JobKey) (r : Int) (a : List Int)
    (h : k1 ≠ k) : lookupJob (upsertJob st k r a) k1 = lookupJob st k1 := by
  induction st with
  | nil => simp [upsertJob, lookupJob, Ne.symm h]
  | cons e rest ih =>
    by_cases he : e.key = k
    · simp [upsertJob, he, lookupJob, Ne.symm h]
    · by_cases he1 : e.key = k1
      · simp [upsertJob, he, lookupJob, he1, h]
      · simp [upsertJob, he, lookupJob, he1, ih]

theorem near_tolerantUpsert (st : JobStore) (k : JobKey) (r : Int) (a : List Int) :
    near (tolerantUpsert st k r a) k r := by
  unfold tolerantUpsert
  cases h : lookupJob st k with
  | none => exact ⟨⟨k, r, a⟩, lookupJob_upsert_self st k r a, by simp⟩
  | some e =>
    by_cases hn : (e.fire - r).natAbs < 60
    · simp only [if_pos hn]
      exact ⟨e, h, hn⟩
    · simp only [if_neg hn]
      exact ⟨⟨k, r, a⟩, lookupJob_upsert_self st k r a, by simp⟩

theorem lookupJob_tolerantUpsert_ne (st : JobStore) (k k1 : JobKey) (r : Int) (a : List Int)
    (h : k1 ≠ k) : lookupJob (tolerantUpsert st k r a) k1 = lookupJob st k1 := by
  unfold tolerantUpsert
  cases lookupJob st k with
  | none => exact lookupJob_upsert_ne st k k1 r a h
  | some e =>
    by_cases hn : (e.fire - r).natAbs < 60
    · simp only [if_pos hn]
    · simp only [if_neg hn]
      exact lookupJob_upsert_ne st k k1 r a h

theorem tolerantUpsert_of_near (st : JobStore) (k : JobKey) (r : Int) (a : List Int)
    (h : near st k r) : tolerantUpsert st k r a = st := by
  obtain ⟨e, he, hn⟩ := h
  unfold tolerantUpsert
  rw [he]
  simp [hn]

theorem findUser_id {l : List User} {uid : Int} {u : User}
    (h : findUser l uid = some u) : u.id = uid := by
  induction l with
  | nil => simp [findUser] at h
  | cons x rest ih =>
    by_cases hx : x.id = uid
    · simp only [findUser, if_pos hx] at h
      injection h with h
      rw [← h]; exact hx
    · simp only [findUser, if_neg hx] at h
      exact ih h

theorem reminderUtcOf_eq (tz : TZ) (c : Int) : reminderUtcOf tz c = c - 3600 := by
  unfold reminderUtcOf
  ring

theorem findHomework_setSent {l : List Homework} {hid : Int} {hw : Homework}
    (h : findHomework l hid = some hw) :
    findHomework (setHomeworkSent l hid) hid = some { hw with reminder_sent := true } := by
  induction l with
  | nil => simp [findHomework] at h
  | cons x rest ih =>
    by_cases hx : x.id = hid
    · simp only [findHomework, if_pos hx] at h
      injection h with h
      subst h
      simp [setHomeworkSent, findHomework, hx]
    · simp only [findHomework, if_neg hx] at h
      simp only [setHomeworkSent, if_neg hx, findHomework]
      exact ih h

theorem unitAction_spec {env : Env} {now : Int} {u : PlanUnit} {k : JobKey} {r : Int}
    {a : List Int} (h : unitAction env now u = some (k, r, a)) :
    ∃ g t s, findGroup env.groups u.slot.group_id = some g ∧
      findUser env.users g.teacher_id = some t ∧
      findUser env.users u.member.student_id = some s ∧
      s.is_active = true ∧
      k = .classK u.slot.id u.targetDate s.id ∧
      a = [u.slot.id, s.id] ∧
      r = classStartUtc env t u.targetDate u.slot.time_at - 3600 ∧
      now < r ∧ now < classStartUtc env t u.targetDate u.slot.time_at := by
  unfold unitAction at h
  cases hg : findGroup env.groups u.slot.group_id with
  | none => simp only [hg] at h; exact Option.noConfusion h
  | some g =>
    simp only [hg] at h
    cases ht : findUser env.users g.teacher_id with
    | none => simp only [ht] at h; exact Option.noConfusion h
    | some t =>
      simp only [ht] at h
      cases hs : findUser env.users u.member.student_id with
      | none => simp only [hs] at h; exact Option.noConfusion h
      | some s =>
        simp only [hs] at h
        by_cases hact : s.is_active = false
        · simp only [if_pos hact] at h; exact Option.noConfusion h
        · simp only [if_neg hact] at h
          by_cases hcond :
              reminderUtcOf (resolveTZ env s.timezone)
                  (classStartUtc env t u.targetDate u.slot.time_at) > now ∧
                classStartUtc env t u.targetDate u.slot.time_at > now
          · simp only [if_pos hcond, Option.some.injEq, Prod.mk.injEq] at h
            obtain ⟨hk, hr, ha⟩ := h
            refine ⟨g, t, s, rfl, ht, rfl, ?_, hk.symm, ha.symm, ?_, ?_, hcond.2⟩
            · revert hact; cases s.is_active <;> simp
            · rw [← hr, reminderUtcOf_eq]
            · rw [← hr, reminderUtcOf_eq]
              rw [reminderUtcOf_eq] at hcond
              exact hcond.1
          · simp only [if_neg hcond] at h; exact Option.noConfusion h

theorem mem_unitsOf {env : Env} {today tomorrow : Int} {td tm : DayOfWeek}
    {l : List Schedule} {u : PlanUnit} (h : u ∈ unitsOf env today tomorrow td tm l) :
    u.slot ∈ l ∧ targetDateOf today tomorrow td tm u.slot = some u.targetDate := by
  induction l with
  | nil => simp [unitsOf] at h
  | cons s rest ih =>
    simp only [unitsOf, List.mem_append] at h
    cases h with
    | inl h1 =>
      unfold itemUnits at h1
      cases hd : targetDateOf today tomorrow td tm s with
      | none => simp [hd] at h1
      | some d =>
        simp only [hd, List.mem_map] at h1
        obtain ⟨m, _, he⟩ := h1
        constructor
        · rw [← he]; exact List.mem_cons_self s rest
        · rw [← he]; exact hd
    | inr h2 =>
      obtain ⟨h3, h4⟩ := ih h2
      exact ⟨List.mem_cons_of_mem s h3, h4⟩

theorem mem_planUnits_slot {env : Env} {now : Int} {u : PlanUnit}
    (h : u ∈ planUnits env now) :
    u.slot ∈ candidateSchedules env (dayOfWeekOf (now.fdiv 86400))
      (dayOfWeekOf (now.fdiv 86400 + 1)) := by
  unfold planUnits at h
  exact (mem_unitsOf h).1

theorem candidate_ids_nodup {env : Env} (td tm : DayOfWeek)
    (h : (env.schedules.map Schedule.id).Nodup) :
    ((candidateSchedules env td tm).map Schedule.id).Nodup := by
  have hsub : List.Sublist (candidateSchedules env td tm) env.schedules :=
    (List.filter_sublist _).trans (List.filter_sublist _)
  exact h.sublist (hsub.map Schedule.id)

theorem units_coherent {env : Env} {now : Int}
    (hN : (env.schedules.map Schedule.id).Nodup)
    {u1 u2 : PlanUnit} {k : JobKey} {r1 r2 : Int} {a1 a2 : List Int}
    (hm1 : u1 ∈ planUnits env now) (hm2 : u2 ∈ planUnits env now)
    (h1 : unitAction env now u1 = some (k, r1, a1))
    (h2 : unitAction env now u2 = some (k, r2, a2)) :
    r1 = r2 ∧ a1 = a2 := by
  obtain ⟨g1, t1, s1, hg1, ht1, hs1, _, hk1, ha1, hr1, _, _⟩ := unitAction_spec h1
  obtain ⟨g2, t2, s2, hg2, ht2, hs2, _, hk2, ha2, hr2, _, _⟩ := unitAction_spec h2
  have hkk := hk1.symm.trans hk2
  rw [JobKey.classK.injEq] at hkk
  obtain ⟨eSlot, eDate, eStu⟩ := hkk
  have hslots : u1.slot = u2.slot :=
    List.inj_on_of_nodup_map (candidate_ids_nodup _ _ hN)
      (mem_planUnits_slot hm1) (mem_planUnits_slot hm2) eSlot
  rw [hslots] at hg1
  have hgg : g1 = g2 := by
    have := hg1.symm.trans hg2
    injection this
  rw [hgg] at ht1
  have htt : t1 = t2 := by
    have := ht1.symm.trans ht2
    injection this
  have hsid1 := findUser_id hs1
  have hsid2 := findUser_id hs2
  have hmid : u1.member.student_id = u2.member.student_id := by
    rw [← hsid1, ← hsid2, eStu]
  rw [hmid] at hs1
  have hss : s1 = s2 := by
    have := hs1.symm.trans hs2
    injection this
  constructor
  · rw [hr1, hr2, htt, eDate, hslots]
  · rw [ha1, ha2, hslots, hss]

theorem stepU_preserves_GoodAt {env : Env} {now : Int} {st : JobStore} {u u0 : PlanUnit}
    (hcoh : ∀ k r a k1 r1 a1, unitAction env now u = some (k, r, a) →
      unitAction env now u0 = some (k1, r1, a1) → k = k1 → r = r1)
    (hG : GoodAt env now st u) : GoodAt env now (stepU env now st u0) u := by
  intro k r a ha
  unfold stepU
  cases h0 : unitAction env now u0 with
  | none => exact hG k r a ha
  | some x =>
    obtain ⟨k1, r1, a1⟩ := x
    by_cases hk : k1 = k
    · subst hk
      have hrr : r = r1 := hcoh k1 r a k1 r1 a1 ha h0 rfl
      show near (tolerantUpsert st k1 r1 a1) k1 r
      rw [← hrr]
      rw [tolerantUpsert_of_near st k1 r a1 (hG k1 r a ha)]
      exact hG k1 r a ha
    · obtain ⟨e, he, hn⟩ := hG k r a ha
      refine ⟨e, ?_, hn⟩
      show lookupJob (tolerantUpsert st k1 r1 a1) k = some e
      rw [lookupJob_tolerantUpsert_ne st k1 k r1 a1 (Ne.symm hk)]
      exact he

theorem foldl_stepU_preserves_GoodAt {env : Env} {now : Int} {u : PlanUnit} :
    ∀ (l : List PlanUnit) (st : JobStore),
      (∀ u0 ∈ l, ∀ k r a k1 r1 a1, unitAction env now u = some (k, r, a) →
        unitAction env now u0 = some (k1, r1, a1) → k = k1 → r = r1) →
      GoodAt env now st u → GoodAt env now (List.foldl (stepU env now) st l) u := by
  intro l
  induction l with
  | nil => intro st _ hG; simpa using hG
  | cons u0 rest ih =>
    intro st hcoh hG
    simp only [List.foldl_cons]
    refine ih (stepU env now st u0) (fun u1 h1 => hcoh u1 (List.mem_cons_of_mem u0 h1)) ?_
    exact stepU_preserves_GoodAt (hcoh u0 (List.mem_cons_self u0 rest)) hG

theorem stepU_establishes {env : Env} {now : Int} (st : JobStore) (u : PlanUnit) :
    GoodAt env now (stepU env now st u) u := by
  intro k r a ha
  unfold stepU
  rw [ha]
  exact near_tolerantUpsert st k r a

theorem foldl_stepU_good {env : Env} {now : Int} {L : List PlanUnit}
    (hC : ∀ u1, u1 ∈ L → ∀ u2, u2 ∈ L → ∀ k r1 a1 r2 a2,
      unitAction env now u1 = some (k, r1, a1) →
      unitAction env now u2 = some (k, r2, a2) → r1 = r2) :
    ∀ (l : List PlanUnit), (∀ x ∈ l, x ∈ L) →
      ∀ (st : JobStore) (u : PlanUnit), u ∈ l →
        GoodAt env now (List.foldl (stepU env now) st l) u := by
  intro l
  induction l with
  | nil => intro _ st u hu; simp at hu
  | cons u0 rest ih =>
    intro hsub st u hu
    simp only [List.foldl_cons]
    rcases List.mem_cons.mp hu with rfl | hmem
    · refine foldl_stepU_preserves_GoodAt rest (stepU env now st u) ?_ ?_
      · intro u1 h1 k r a k1 r1 a1 hA hA1 hkk
        subst hkk
        exact hC u (hsub u (List.mem_cons_self u rest)) u1
          (hsub u1 (List.mem_cons_of_mem u h1)) k r a r1 a1 hA hA1
      · exact stepU_establishes st u
    · exact ih (fun x hx => hsub x (List.mem_cons_of_mem u0 hx)) (stepU env now st u0) u hmem

theorem foldl_stepU_fix {env : Env} {now : Int} :
    ∀ (l : List PlanUnit) (st : JobStore),
      (∀ u ∈ l, GoodAt env now st u) →
      List.foldl (stepU env now) st l = st := by
  intro l
  induction l with
  | nil => intro st _; rfl
  | cons u0 rest ih =>
    intro st hG
    simp only [List.foldl_cons]
    have h0 : stepU env now st u0 = st := by
      unfold stepU
      cases ha : unitAction env now u0 with
      | none => rfl
      | some x =>
        obtain ⟨k, r, a⟩ := x
        exact tolerantUpsert_of_near st k r a (hG u0 (List.mem_cons_self u0 rest) k r a ha)
    rw [h0]
    exact ih st (fun u hu => hG u (List.mem_cons_of_mem u0 hu))

theorem foldl_stepU_lookup_ne {env : Env} {now : Int} {k : JobKey} :
    ∀ (l : List PlanUnit) (st : JobStore),
      (∀ u ∈ l, ∀ k1 r1 a1, unitAction env now u = some (k1, r1, a1) → k1 ≠ k) →
      lookupJob (List.foldl (stepU env now) st l) k = lookupJob st k := by
  intro l
  induction l with
  | nil => intro st _; rfl
  | cons u0 rest ih =>
    intro st hne
    simp only [List.foldl_cons]
    rw [ih (stepU env now st u0) (fun u hu => hne u (List.mem_cons_of_mem u0 hu))]
    unfold stepU
    cases ha : unitAction env now u0 with
    | none => rfl
    | some x =>
      obtain ⟨k1, r1, a1⟩ := x
      exact lookupJob_tolerantUpsert_ne st k1 k r1 a1
        (Ne.symm (hne u0 (List.mem_cons_self u0 rest) k1 r1 a1 ha))

theorem foldl_ext_local {α β : Type} (f g : α → β → α) :
    ∀ (l : List β), (∀ a b, b ∈ l → f a b = g a b) →
      ∀ (a : α), List.foldl f a l = List.foldl g a l := by
  intro l
  induction l with
  | nil => intro _ _; rfl
  | cons x rest ih =>
    intro h a
    simp only [List.foldl_cons]
    rw [h a x (List.mem_cons_self x rest)]
    exact ih (fun a1 b hb => h a1 b (List.mem_cons_of_mem x hb)) (g a x)

theorem foldl_stepU_map_none {env : Env} {now : Int} {f : GroupMember → PlanUnit}
    (hf : ∀ m, unitAction env now (f m) = none) :
    ∀ (ms : List GroupMember) (st : JobStore),
      List.foldl (stepU env now) st (ms.map f) = st := by
  intro ms
  induction ms with
  | nil => intro st; rfl
  | cons m rest ih =>
    intro st
    simp only [List.map_cons, List.foldl_cons]
    have h0 : stepU env now st (f m) = st := by
      unfold stepU
      rw [hf m]
    rw [h0]
    exact ih st

theorem processSlotJobs_eq (env : Env) (now today tomorrow : Int) (td tm : DayOfWeek)
    (st : JobStore) (item : Schedule) :
    processSlotJobs env now today tomorrow td tm st item =
      List.foldl (stepU env now) st (itemUnits env today tomorrow td tm item) := by
  unfold processSlotJobs itemUnits
  cases hd : targetDateOf today tomorrow td tm item with
  | none => rfl
  | some d =>
    simp only []
    cases hg : findGroup env.groups item.group_id with
    | none =>
      refine (foldl_stepU_map_none ?_ _ st).symm
      intro m
      unfold unitAction
      simp only [hg]
    | some group =>
      simp only []
      cases ht : findUser env.users group.teacher_id with
      | none =>
        refine (foldl_stepU_map_none ?_ _ st).symm
        intro m
        unfold unitAction
        simp only [hg, ht]
      | some teacher =>
        simp only [List.foldl_map]
        refine foldl_ext_local _ _ _ ?_ st
        intro st1 m _
        unfold stepU unitAction processStudentJobs
        simp only [hg, ht]
        cases hs : findUser env.users m.student_id with
        | none => simp only [hs]
        | some student =>
          simp only [hs]
          by_cases hact : student.is_active = false
          · simp only [if_pos hact]
          · simp only [if_neg hact]
            by_cases hcond :
                reminderUtcOf (resolveTZ env student.timezone)
                    (classStartUtc env teacher d item.time_at) > now ∧
                  classStartUtc env teacher d item.time_at > now
            · simp only [if_pos hcond]
            · simp only [if_neg hcond]

theorem foldl_slots_eq_units (env : Env) (now today tomorrow : Int) (td tm : DayOfWeek) :
    ∀ (l : List Schedule) (st : JobStore),
      List.foldl (processSlotJobs env now today tomorrow td tm) st l =
        List.foldl (stepU env now) st (unitsOf env today tomorrow td tm l) := by
  intro l
  induction l with
  | nil => intro st; rfl
  | cons s rest ih =>
    intro st
    simp only [List.foldl_cons, unitsOf]
    rw [List.foldl_append]
    rw [processSlotJobs_eq]
    exact ih _

theorem plan_eq_foldl (env : Env) (now : Int) (st : JobStore) :
    schedule_class_reminders_jobs env now st =
      List.foldl (stepU env now) st (planUnits env now) := by
  unfold schedule_class_reminders_jobs planUnits
  exact foldl_slots_eq_units env now _ _ _ _ _ st

theorem foldl_pair_eq (now today tomorrow : Int) (td tm : DayOfWeek) :
    ∀ (l : List Schedule) (e : Env) (s : JobStore),
      List.foldl
        (fun acc item => (acc.1, processSlotJobs acc.1 now today tomorrow td tm acc.2 item))
        (e, s) l
      = (e, List.foldl (processSlotJobs e now today tomorrow td tm) s l) := by
  intro l
  induction l with
  | nil => intro e s; rfl
  | cons x rest ih =>
    intro e s
    simp only [List.foldl_cons]
    exact ih e (processSlotJobs e now today tomorrow td tm s x)

theorem schedule_class_reminders_eq (env : Env) (now : Int) (st : JobStore) :
    schedule_class_reminders env now st = (env, schedule_class_reminders_jobs env now st) := by
  unfold schedule_class_reminders schedule_class_reminders_jobs
  exact foldl_pair_eq now _ _ _ _ _ env st

theorem send_homework_reminder_ok (oracle : Int → Bool) (tg : Int) :
    send_homework_reminder oracle tg = .ok () := by
  unfold send_homework_reminder sendMessage
  by_cases h : oracle tg <;> simp [h]

theorem send_class_reminder_ok (oracle : Int → Bool) (tg : Int) :
    send_class_reminder oracle tg = .ok () := by
  unfold send_class_reminder sendMessage
  by_cases h : oracle tg <;> simp [h]

theorem homeworkFanout_ok (env : Env) (oracle : Int → Bool) :
    ∀ (ms : List GroupMember),
      homeworkFanout env oracle ms = .ok (activeRecipients env ms) := by
  intro ms
  induction ms with
  | nil => rfl
  | cons m rest ih =>
    unfold homeworkFanout activeRecipients
    cases hs : findUser env.users m.student_id with
    | none => exact ih
    | some s =>
      simp only []
      by_cases hact : s.is_active = false
      · simp only [if_pos hact]
        exact ih
      · simp only [if_neg hact]
        rw [send_homework_reminder_ok]
        rw [ih]
        rfl

/-- Claim C1: for every job the class planner schedules, the fire-instant
equals the absolute instant obtained by localizing (target date, slot
time-of-day) in the teacher's time zone minus 1 hour, and this value is
independent of the student's time zone: projecting the class-start instant
into any student zone (including the UTC degradation for invalid names),
subtracting 1 hour there and converting back to UTC yields the same absolute
instant. -/
theorem claim_C1_fire_instant_teacher_zone (env : Env) (now : Int) (u : PlanUnit)
    (k : JobKey) (r : Int) (a : List Int)
    (h : unitAction env now u = some (k, r, a)) :
    ∃ group teacher,
      findGroup env.groups u.slot.group_id = some group ∧
      findUser env.users group.teacher_id = some teacher ∧
      r = classStartUtc env teacher u.targetDate u.slot.time_at - 3600 ∧
      ∀ tz : TZ, reminderUtcOf tz (classStartUtc env teacher u.targetDate u.slot.time_at)
        = classStartUtc env teacher u.targetDate u.slot.time_at - 3600 := by
  obtain ⟨g, t, s, hg, ht, _, _, _, _, hr, _, _⟩ := unitAction_spec h
  exact ⟨g, t, hg, ht, hr, fun tz => reminderUtcOf_eq tz _⟩

/-- Witness for C1 at a concrete state: teacher in UTC+3, student in UTC−5
(8 hours apart), Monday-18:00 slot on day 18; the planner's job fires at the
teacher-local class start minus one hour. -/
theorem claim_C1_witness :
    ∃ group teacher,
      findGroup envW.groups
          (PlanUnit.mk schedEvening 18 memberW).slot.group_id = some group ∧
      findUser envW.users group.teacher_id = some teacher ∧
      (1605600 : Int) =
        classStartUtc envW teacher
          (PlanUnit.mk schedEvening 18 memberW).targetDate
          (PlanUnit.mk schedEvening 18 memberW).slot.time_at - 3600 ∧
      ∀ tz : TZ,
        reminderUtcOf tz
            (classStartUtc envW teacher
              (PlanUnit.mk schedEvening 18 memberW).targetDate
              (PlanUnit.mk schedEvening 18 memberW).slot.time_at)
          = classStartUtc envW teacher
              (PlanUnit.mk schedEvening 18 memberW).targetDate
              (PlanUnit.mk schedEvening 18 memberW).slot.time_at - 3600 :=
  claim_C1_fire_instant_teacher_zone envW nowW (PlanUnit.mk schedEvening 18 memberW)
    (.classK 20 18 2) 1605600 [20, 2] (by decide)

/-- Claim C2: planning a homework reminder creates exactly one job keyed to
the homework item firing at deadline − 1h when that instant is still in the
future, and otherwise leaves the job store unchanged. -/
theorem claim_C2_homework_lead_time (now homework_id deadline_utc group_id : Int)
    (st : JobStore) :
    (deadline_utc - 3600 > now →
      lookupJob (schedule_homework_reminder now homework_id deadline_utc group_id st)
          (.homeworkK homework_id)
        = some ⟨.homeworkK homework_id, deadline_utc - 3600, [homework_id, group_id]⟩) ∧
    (deadline_utc - 3600 ≤ now →
      schedule_homework_reminder now homework_id deadline_utc group_id st = st) := by
  constructor
  · intro h
    unfold schedule_homework_reminder
    rw [if_neg (not_le.mpr h)]
    exact lookupJob_upsert_self st (.homeworkK homework_id) (deadline_utc - 3600)
      [homework_id, group_id]
  · intro h
    unfold schedule_homework_reminder
    rw [if_pos h]

/-- Witness for C2: a deadline 2h ahead produces a job at deadline − 1h; a
deadline 1h ahead (reminder instant exactly now) produces nothing. -/
theorem claim_C2_witness :
    lookupJob (schedule_homework_reminder 0 1 7200 5 []) (.homeworkK 1)
      = some ⟨.homeworkK 1, 3600, [1, 5]⟩ ∧
    schedule_homework_reminder 3600 2 7200 5 [] = [] :=
  ⟨(claim_C2_homework_lead_time 0 1 7200 5 []).1 (by decide),
   (claim_C2_homework_lead_time 3600 2 7200 5 []).2 (by decide)⟩

/-- Claim C6: cancelling a homework reminder when no job with that key is
pending raises no error and leaves the job store unchanged. -/
theorem claim_C6_cancel_absent_noop (st : JobStore) (homework_id : Int)
    (h : lookupJob st (.homeworkK homework_id) = none) :
    cancel_homework_reminder st homework_id = st := by
  unfold cancel_homework_reminder remove_job
  rw [h]

/-- Witness for C6 on a store holding one unrelated (class) job. -/
theorem claim_C6_witness :
    cancel_homework_reminder [⟨.classK 1 2 3, 100, [1, 3]⟩] 7
      = [⟨.classK 1 2 3, 100, [1, 3]⟩] :=
  claim_C6_cancel_absent_noop [⟨.classK 1 2 3, 100, [1, 3]⟩] 7 (by decide)

/-- Claim C7: a class-occurrence planning pass leaves every entity row
(users, groups, members, homework, schedules) unchanged; its whole effect is
confined to the job store, where it acts as `schedule_class_reminders_jobs`. -/
theorem claim_C7_planner_frame (env : Env) (now : Int) (st : JobStore) :
    (schedule_class_reminders env now st).1 = env ∧
    (schedule_class_reminders env now st).2 = schedule_class_reminders_jobs env now st := by
  rw [schedule_class_reminders_eq]
  exact ⟨rfl, rfl⟩

/-- Claim C4: with distinct schedule-row ids (the table's primary key), a
second planning pass at the same instant over the same entity state leaves
the job store produced by the first pass exactly unchanged: every recomputed
job finds an existing entry within the 60-second tolerance and is skipped. -/
theorem claim_C4_replanning_idempotent (env : Env) (now : Int) (st : JobStore)
    (hN : (env.schedules.map Schedule.id).Nodup) :
    schedule_class_reminders_jobs env now (schedule_class_reminders_jobs env now st)
      = schedule_class_reminders_jobs env now st := by
  have hcoh : ∀ u1, u1 ∈ planUnits env now → ∀ u2, u2 ∈ planUnits env now →
      ∀ k r1 a1 r2 a2, unitAction env now u1 = some (k, r1, a1) →
        unitAction env now u2 = some (k, r2, a2) → r1 = r2 :=
    fun u1 h1 u2 h2 k r1 a1 r2 a2 hA1 hA2 => (units_coherent hN h1 h2 hA1 hA2).1
  have hGood : ∀ u ∈ planUnits env now,
      GoodAt env now (schedule_class_reminders_jobs env now st) u := by
    intro u hu
    rw [plan_eq_foldl]
    exact foldl_stepU_good hcoh (planUnits env now) (fun x hx => hx) st u hu
  calc schedule_class_reminders_jobs env now (schedule_class_reminders_jobs env now st)
      = List.foldl (stepU env now) (schedule_class_reminders_jobs env now st)
          (planUnits env now) := plan_eq_foldl env now _
    _ = schedule_class_reminders_jobs env now st := foldl_stepU_fix (planUnits env now) _ hGood

/-- Witness for C4 at the concrete state `envW`. -/
theorem claim_C4_witness :
    schedule_class_reminders_jobs envW nowW (schedule_class_reminders_jobs envW nowW [])
      = schedule_class_reminders_jobs envW nowW [] :=
  claim_C4_replanning_idempotent envW nowW [] (by decide)

/-- Claim C3: if, for a (slot, target date, student) considered by a planning
pass, the computed reminder instant is at or before now, or the class-start
instant is at or before now, the pass does not upsert any job under that
key (the store is unchanged there). Schedule ids are assumed distinct, the
schedule table's primary-key invariant. -/
theorem claim_C3_no_retroactive_job (env : Env) (now : Int) (st : JobStore)
    (slot : Schedule) (d : Int) (m : GroupMember) (group : GroupRow)
    (teacher student : User)
    (hN : (env.schedules.map Schedule.id).Nodup)
    (hu : (PlanUnit.mk slot d m) ∈ planUnits env now)
    (hg : findGroup env.groups slot.group_id = some group)
    (ht : findUser env.users group.teacher_id = some teacher)
    (hs : findUser env.users m.student_id = some student)
    (hpast : reminderUtcOf (resolveTZ env student.timezone)
        (classStartUtc env teacher d slot.time_at) ≤ now ∨
      classStartUtc env teacher d slot.time_at ≤ now) :
    lookupJob (schedule_class_reminders_jobs env now st) (.classK slot.id d student.id)
      = lookupJob st (.classK slot.id d student.id) := by
  rw [plan_eq_foldl]
  apply foldl_stepU_lookup_ne
  intro u1 hu1 k1 r1 a1 hA1 hkeq
  obtain ⟨g1, t1, s1, hg1, ht1, hs1, _, hk1, _, hr1, hn1, hn2⟩ := unitAction_spec hA1
  have hkk := hk1.symm.trans hkeq
  rw [JobKey.classK.injEq] at hkk
  obtain ⟨eSlot, eDate, eStu⟩ := hkk
  have hslotc : slot ∈ candidateSchedules env (dayOfWeekOf (now.fdiv 86400))
      (dayOfWeekOf (now.fdiv 86400 + 1)) := mem_planUnits_slot hu
  have hslots : u1.slot = slot :=
    List.inj_on_of_nodup_map (candidate_ids_nodup _ _ hN) (mem_planUnits_slot hu1)
      hslotc eSlot
  rw [hslots] at hg1
  have hgg : g1 = group := by
    have := hg1.symm.trans hg
    injection this
  rw [hgg] at ht1
  have htt : t1 = teacher := by
    have := ht1.symm.trans ht
    injection this
  have hid1 := findUser_id hs1
  have hid := findUser_id hs
  have hmid : u1.member.student_id = m.student_id := by rw [← hid1, eStu, hid]
  rw [hmid] at hs1
  have hss : s1 = student := by
    have := hs1.symm.trans hs
    injection this
  rw [hr1, htt, eDate, hslots] at hn1
  rw [htt, eDate, hslots] at hn2
  rw [reminderUtcOf_eq] at hpast
  rcases hpast with h | h <;> omega

/-- Witness for C3: the Monday-midnight slot of `envW` has already started at
`nowW` (01:00 UTC), so the pass leaves the empty store untouched at its key. -/
theorem claim_C3_witness :
    lookupJob (schedule_class_reminders_jobs envW nowW []) (.classK 21 18 2)
      = lookupJob [] (.classK 21 18 2) :=
  claim_C3_no_retroactive_job envW nowW [] schedMidnight 18 memberW groupW
    teacherW studentW (by decide) (by decide) (by decide) (by decide) (by decide)
    (by decide)

/-- Claim C5: when a firing reminder job finds its referenced entity gone,
its group gone or inactive, or (class path) its student gone or inactive,
the job body performs no delivery call, raises no error, and leaves the
entity state — in particular the homework's reminder-sent flag — unchanged. -/
theorem claim_C5_fire_time_suppression (env : Env) (oracle : Int → Bool)
    (homework_id group_id schedule_id student_id : Int)
    (h1 : homeworkSuppressedB env homework_id group_id = true)
    (h2 : classSuppressedB env schedule_id student_id = true) :
    send_homework_reminder_job env oracle homework_id group_id = .ok (env, []) ∧
    send_class_reminder_to_student_job env oracle schedule_id student_id = .ok (env, []) := by
  constructor
  · unfold send_homework_reminder_job
    unfold homeworkSuppressedB at h1
    cases hfh : findHomework env.homeworks homework_id with
    | none => simp only [hfh]
    | some hw =>
      simp only [hfh] at h1 ⊢
      by_cases hsent : hw.reminder_sent = true
      · simp only [if_pos hsent]
      · simp only [if_neg hsent]
        cases hfg : findGroup env.groups group_id with
        | none => simp only [hfg]
        | some g =>
          simp only [hfg] at h1 ⊢
          have hga : g.is_active = false := by
            revert h1
            cases g.is_active <;> simp
          simp only [if_pos hga]
  · unfold send_class_reminder_to_student_job
    unfold classSuppressedB at h2
    cases hfs : findSchedule env.schedules schedule_id with
    | none => simp only [hfs]
    | some sch =>
      simp only [hfs] at h2 ⊢
      cases hfg : findGroup env.groups sch.group_id with
      | none => simp only [hfg]
      | some g =>
        simp only [hfg] at h2 ⊢
        by_cases hga : g.is_active = false
        · simp only [if_pos hga]
        · simp only [if_neg hga] at h2 ⊢
          cases hfu : findUser env.users student_id with
          | none => simp only [hfu]
          | some s =>
            simp only [hfu] at h2 ⊢
            have hsa : s.is_active = false := by
              revert h2
              cases s.is_active <;> simp
            simp only [if_pos hsa]

/-- Witness for C5: a homework id and a schedule id that do not exist in
`envW`; both job bodies return without delivering and leave the state alone. -/
theorem claim_C5_witness :
    send_homework_reminder_job envW (fun _ => true) 99 10 = .ok (envW, []) ∧
    send_class_reminder_to_student_job envW (fun _ => true) 99 2 = .ok (envW, []) :=
  claim_C5_fire_time_suppression envW (fun _ => true) 99 10 99 2 (by decide) (by decide)

/-- Claim C8: a delivery failure for one recipient is caught and does not
propagate or shorten the fan-out. Whatever the transport oracle does: the
homework fan-out loop completes normally and attempts every active member of
the group in order (independent of the oracle); both notifier functions
return normally; and the class job body always completes without error. -/
theorem claim_C8_per_recipient_isolation (env : Env) (oracle : Int → Bool)
    (ms : List GroupMember) (tg schedule_id student_id : Int) :
    homeworkFanout env oracle ms = .ok (activeRecipients env ms) ∧
    send_homework_reminder oracle tg = .ok () ∧
    send_class_reminder oracle tg = .ok () ∧
    ∃ p, send_class_reminder_to_student_job env oracle schedule_id student_id = .ok p := by
  refine ⟨homeworkFanout_ok env oracle ms, send_homework_reminder_ok oracle tg,
    send_class_reminder_ok oracle tg, ?_⟩
  unfold send_class_reminder_to_student_job
  cases findSchedule env.schedules schedule_id with
  | none => exact ⟨(env, []), rfl⟩
  | some sch =>
    simp only []
    cases findGroup env.groups sch.group_id with
    | none => exact ⟨(env, []), rfl⟩
    | some g =>
      simp only []
      by_cases hga : g.is_active = false
      · exact ⟨(env, []), by simp only [if_pos hga]⟩
      · simp only [if_neg hga]
        cases findUser env.users student_id with
        | none => exact ⟨(env, []), rfl⟩
        | some s =>
          simp only []
          by_cases hsa : s.is_active = false
          · exact ⟨(env, []), by simp only [if_pos hsa]⟩
          · simp only [if_neg hsa]
            rw [send_class_reminder_ok]
            exact ⟨(env, [s.tg_id]), rfl⟩

/-- Claim C9: at class-reminder fire time the executor re-checks only the
schedule row, the group (existence and activity) and the student (existence
and activity); group membership is not re-checked, so a student removed from
the group between planning and firing is still delivered to. -/
theorem claim_C9_no_membership_recheck (env : Env) (oracle : Int → Bool)
    (schedule_id student_id : Int) (sch : Schedule) (g : GroupRow) (s : User)
    (hsch : findSchedule env.schedules schedule_id = some sch)
    (hg : findGroup env.groups sch.group_id = some g)
    (hga : g.is_active = true)
    (hs : findUser env.users student_id = some s)
    (hsa : s.is_active = true)
    (_hnotmember : env.members.all
      (fun m => !(decide (m.group_id = sch.group_id) && decide (m.student_id = student_id)))
      = true) :
    send_class_reminder_to_student_job env oracle schedule_id student_id
      = .ok (env, [s.tg_id]) := by
  unfold send_class_reminder_to_student_job
  simp only [hsch, hg, hs]
  have hga1 : ¬g.is_active = false := by rw [hga]; simp
  have hsa1 : ¬s.is_active = false := by rw [hsa]; simp
  simp only [if_neg hga1, if_neg hsa1]
  rw [send_class_reminder_ok]

/-- Witness for C9: in `envNoMember` the student is active but the members
table is empty, and the class job still delivers to chat id 102. -/
theorem claim_C9_witness :
    send_class_reminder_to_student_job envNoMember (fun _ => true) 20 2
      = .ok (envNoMember, [102]) :=
  claim_C9_no_membership_recheck envNoMember (fun _ => true) 20 2
    ⟨20, 10, .monday, 3600, some "https://meet.example/c"⟩ ⟨10, 1, true⟩
    ⟨2, 102, "UTC", true⟩ (by decide) (by decide) (by decide) (by decide)
    (by decide) (by decide)

/-- Claim C10: when the homework job fires with the row present, the flag
still false and the group present and active, it attempts the fan-out and
then sets reminder-sent and commits unconditionally — for every transport
oracle (even all-failing) and any member list (even empty) — after which a
re-fire of the same job delivers nothing. -/
theorem claim_C10_flag_set_unconditionally (env : Env) (oracle : Int → Bool)
    (homework_id group_id : Int) (hw : Homework) (g : GroupRow)
    (hfh : findHomework env.homeworks homework_id = some hw)
    (hsent : hw.reminder_sent = false)
    (hfg : findGroup env.groups group_id = some g)
    (hga : g.is_active = true) :
    send_homework_reminder_job env oracle homework_id group_id
      = .ok ({ env with homeworks := setHomeworkSent env.homeworks homework_id },
          activeRecipients env (membersOf env.members group_id)) ∧
    findHomework (setHomeworkSent env.homeworks homework_id) homework_id
      = some { hw with reminder_sent := true } ∧
    send_homework_reminder_job
        { env with homeworks := setHomeworkSent env.homeworks homework_id }
        oracle homework_id group_id
      = .ok ({ env with homeworks := setHomeworkSent env.homeworks homework_id }, []) := by
  have hset := findHomework_setSent hfh
  refine ⟨?_, hset, ?_⟩
  · unfold send_homework_reminder_job
    simp only [hfh]
    have hsent1 : ¬hw.reminder_sent = true := by rw [hsent]; simp
    simp only [if_neg hsent1, hfg]
    have hga1 : ¬g.is_active = false := by rw [hga]; simp
    simp only [if_neg hga1]
    rw [homeworkFanout_ok]
  · unfold send_homework_reminder_job
    simp only [hset]
    simp

/-- Witness for C10: homework 30 of `envW` fires with an all-failing
transport; the flag is set anyway and a second fire is a no-op. -/
theorem claim_C10_witness :
    send_homework_reminder_job envW (fun _ => false) 30 10
      = .ok ({ envW with homeworks := setHomeworkSent envW.homeworks 30 },
          activeRecipients envW (membersOf envW.members 10)) ∧
    findHomework (setHomeworkSent envW.homeworks 30) 30
      = some { hwW with reminder_sent := true } ∧
    send_homework_reminder_job
        { envW with homeworks := setHomeworkSent envW.homeworks 30 }
        (fun _ => false) 30 10
      = .ok ({ envW with homeworks := setHomeworkSent envW.homeworks 30 }, []) :=
  claim_C10_flag_set_unconditionally envW (fun _ => false) 30 10 hwW groupW
    rfl rfl rfl rfl
